import Mathlib

/-!
Verification of the `bitrix24_clear` cleanup script (`src/cleaner.py`).

The script is sequential glue: read configuration, run a handful of SQL
statements over a MySQL connection, wipe folders, repopulate them.  We give a
shallow embedding:

* the config list parser (`unquote_value`, `parse_quoted_list`) is embedded
  as executable functions over `List Char`, including a faithful model of
  `re.findall` for the concrete pattern used by the source,
  `\"[^\"]+\"|\'[^\']+\'|[^,\s]+` (alternatives tried in order at each
  position, non-overlapping scan, advance by one character on failure);
* the database and filesystem operations are embedded as trace-producing
  state transformers over a `World` (current table list + event trace +
  oracle counters).  External outcomes - whether a SQL statement succeeds,
  whether connecting succeeds, what the interactive user answers, whether a
  delegated subprocess exits 0 - are supplied by an `Oracle`.  The
  filesystem is a read-only snapshot `Fs` (the source queries the real
  filesystem; the claims treated here depend only on which operations are
  attempted, not on an evolving disk state).

Python-semantics notes used by the embedding, marked where they matter:
* a `with connection.cursor() as cursor:` block closes the cursor on every
  exit (pymysql `Cursor.__exit__` calls `close()`, which sets the cursor's
  connection to `None`); a later `cursor.execute(...)` on that closed cursor
  raises `ProgrammingError("Cursor closed")` before anything is sent to the
  server.  This is modelled by the `cursorOpen` flag of `wExec`.
* `print` calls are modelled as `Ev.printMsg` events; messages that
  interpolate an exception's text are modelled by their fixed message head,
  since the exception text is outside the program.
* the interactive y/N check of `confirm_destructive_operation` is abstracted
  to the Boolean `Oracle.promptYes` (the token comparison on the typed
  response is not relevant to any claim).
-/

namespace Cleaner

/-! ## Characters and Python string helpers -/

/-- The single-quote character (written via its code point). -/
def squote : Char := Char.ofNat 39

/-- The double-quote character. -/
def dquote : Char := '"'

/-- Python `\s` for the ASCII range: space, tab, newline, carriage return,
form feed, vertical tab.  Config values are ASCII paths and identifiers. -/
def isPySpace (c : Char) : Bool :=
  c == ' ' || c == '\t' || c == '\n' || c == Char.ofNat 13 ||
    c == Char.ofNat 12 || c == Char.ofNat 11

/-- Python `str.strip()`: drop leading and trailing whitespace. -/
def pyStrip (cs : List Char) : List Char :=
  ((cs.dropWhile isPySpace).reverse.dropWhile isPySpace).reverse

/-- Python `s.startswith(q) and s.endswith(q)` for a one-character `q`. -/
def startsEndsWith (q : Char) (s : List Char) : Bool :=
  s.head? == some q && s.getLast? == some q

/-- `unquote_value` (src/cleaner.py lines 15-23) on the character list of the
value: strip whitespace, then remove one pair of matching outer quotes if
present (`value_str[1:-1]`, which on a 1-character string yields `""`,
exactly as `List.drop 1` followed by `List.dropLast` does). -/
def unquoteChars (cs : List Char) : List Char :=
  let s := pyStrip cs
  if startsEndsWith dquote s || startsEndsWith squote s then
    (s.drop 1).dropLast
  else s

/-- `unquote_value` on a `String` (the `None` input case of the source is not
reachable from `parse_quoted_list`, whose matches are strings). -/
def unquote_value (v : String) : String :=
  String.mk (unquoteChars v.toList)

/-- A character matched by the third regex alternative `[^,\s]+`:
not a comma and not whitespace. -/
def isBareChar (c : Char) : Bool :=
  !(c == ',' || isPySpace c)

/-- Matching the regex piece `q[^q]+q` at the start of `q :: cs`: the greedy
`[^q]+` runs to the next `q` (it can never cross one), so the piece matches
iff `cs` contains `q` with at least one character before it.  Returns the
content between the quotes and rest of the input after the closing quote. -/
def quoteSplit (q : Char) (cs : List Char) : Option (List Char × List Char) :=
  match cs.dropWhile (fun c => !(c == q)) with
  | [] => none
  | _ :: rest =>
    let content := cs.takeWhile (fun c => !(c == q))
    if content.isEmpty then none else some (content, rest)

/-- One `re.findall` scan for the source's pattern
`\"[^\"]+\"|\'[^\']+\'|[^,\s]+`, with explicit fuel (each step consumes at
least one character, so `cs.length` fuel suffices).  At each position the
three alternatives are tried in order; on failure the scan advances one
character; a match is appended whole (quotes included) and the scan resumes
after it. -/
def reFindallAux : Nat → List Char → List (List Char)
  | 0, _ => []
  | _ + 1, [] => []
  | fuel + 1, c :: cs =>
    if c == dquote then
      match quoteSplit dquote cs with
      | some (content, rest) =>
        (dquote :: (content ++ [dquote])) :: reFindallAux fuel rest
      | none =>
        ((c :: cs).takeWhile isBareChar) ::
          reFindallAux fuel ((c :: cs).dropWhile isBareChar)
    else if c == squote then
      match quoteSplit squote cs with
      | some (content, rest) =>
        (squote :: (content ++ [squote])) :: reFindallAux fuel rest
      | none =>
        ((c :: cs).takeWhile isBareChar) ::
          reFindallAux fuel ((c :: cs).dropWhile isBareChar)
    else if isBareChar c then
      ((c :: cs).takeWhile isBareChar) ::
        reFindallAux fuel ((c :: cs).dropWhile isBareChar)
    else
      reFindallAux fuel cs

/-- `re.findall(pattern, value)` for the source's pattern. -/
def reFindall (cs : List Char) : List (List Char) :=
  reFindallAux cs.length cs

/-- The loop body of `parse_quoted_list` (lines 35-41): unquote every match
and keep the non-empty results, in order. -/
def parseTokens (cs : List Char) : List String :=
  (((reFindall cs).map unquoteChars).filter (fun t => !t.isEmpty)).map String.mk

/-- `parse_quoted_list` (src/cleaner.py lines 26-42).  The argument is an
`Option String` because Python's `if not value` treats `None` and the empty
string alike. -/
def parse_quoted_list : Option String → List String
  | none => []
  | some v => if v = "" then [] else parseTokens v.toList

/-! ## Settings (the typed snapshot produced by `load_settings`) -/

/-- The `database` section of the settings dictionary. -/
structure DbSettings where
  host : String
  user : String
  password : String
  database_name : String
  mode : String
  tables : List String
  auth_plugin : Option String
  deriving DecidableEq

/-- The `folders` section. -/
structure FolderSettings where
  clean : List String
  copy_sources : List String
  copy_destinations : List String
  copy_user : String
  deriving DecidableEq

/-- The `backup` section. -/
structure BackupSettings where
  enable : Bool
  backup_dir : String
  deriving DecidableEq

/-- The `security` section. -/
structure SecuritySettings where
  confirm_destructive_operations : Bool
  deriving DecidableEq

/-- The whole settings snapshot. -/
structure Settings where
  database : DbSettings
  folders : FolderSettings
  backup : BackupSettings
  security : SecuritySettings
  deriving DecidableEq

/-! ## Events, oracle, world -/

/-- Observable events of a run: SQL statements actually sent to the server
(with the server's verdict), the `ProgrammingError` of executing on a closed
cursor (nothing reaches the server), commits, connection attempts and
closes, printed lines, interactive prompts, delegated subprocess runs and
direct filesystem operations. -/
inductive Ev where
  | exec (stmt : String) (ok : Bool)
  | progErr (stmt : String)
  | commitTx (ok : Bool)
  | connectAttempt (ok : Bool)
  | closeConn
  | printMsg (msg : String)
  | promptUser (msg : String) (accepted : Bool)
  | runCmd (cmd : List String) (ok : Bool)
  | mkdirs (path : String)
  | copytreeEv (src : String) (dst : String)
  | copy2Ev (src : String) (dst : String)
  | rmtreeEv (path : String)
  | unlinkEv (path : String)
  deriving DecidableEq

/-- Read-only filesystem snapshot queried by the source via `os.path` and
`os.listdir`. -/
structure Fs where
  pathExists : String → Bool
  isdir : String → Bool
  isfile : String → Bool
  listdir : String → List String

/-- External outcomes: `execOk n` is the server's verdict on the `n`-th
statement/commit sent, `connOk n` on the `n`-th connection attempt,
`promptYes n` the user's answer to the `n`-th prompt, `runOk cmd` the
delegated subprocess's exit status, `curUser` the result of
`getpass.getuser()`. -/
structure Oracle where
  execOk : Nat → Bool
  connOk : Nat → Bool
  promptYes : Nat → Bool
  runOk : List String → Bool
  curUser : String

/-- Run state: current tables of the database, trace so far, and counters
indexing into the oracle. -/
structure World where
  tables : List String
  events : List Ev
  step : Nat
  conns : Nat
  prompts : Nat
  deriving DecidableEq

/-- Initial world over a given database table list. -/
def initWorld (ts : List String) : World :=
  { tables := ts, events := [], step := 0, conns := 0, prompts := 0 }

/-- Append one event. -/
def wEmit (e : Ev) (w : World) : World :=
  { w with events := w.events ++ [e] }

/-- A `print(...)` call. -/
def wPrint (msg : String) (w : World) : World :=
  wEmit (.printMsg msg) w

/-- A `cursor.execute(stmt)` call.  On an open cursor the statement is sent
and the oracle decides success (`false` means the call raised); on a closed
cursor pymysql raises `ProgrammingError("Cursor closed")` and nothing is
sent.  The returned Boolean is `true` iff no exception was raised. -/
def wExec (o : Oracle) (cursorOpen : Bool) (stmt : String) (w : World) :
    World × Bool :=
  if cursorOpen then
    let ok := o.execOk w.step
    ({ w with events := w.events ++ [.exec stmt ok], step := w.step + 1 }, ok)
  else
    (wEmit (.progErr stmt) w, false)

/-- A `connection.commit()` call; the oracle decides whether it raises. -/
def wCommit (o : Oracle) (w : World) : World × Bool :=
  let ok := o.execOk w.step
  ({ w with events := w.events ++ [.commitTx ok], step := w.step + 1 }, ok)

/-- One `confirm_destructive_operation(msg)` call (lines 84-88). -/
def wPrompt (o : Oracle) (msg : String) (w : World) : World × Bool :=
  let acc := o.promptYes w.prompts
  ({ w with events := w.events ++ [.promptUser msg acc], prompts := w.prompts + 1 }, acc)

/-- One `create_db_connection` attempt (lines 104-137). -/
def wConnect (o : Oracle) (w : World) : World × Bool :=
  let ok := o.connOk w.conns
  ({ w with events := w.events ++ [.connectAttempt ok], conns := w.conns + 1 }, ok)

/-! ## Database operations -/

/-- The `except` handler shared by `drop_all_tables` (lines 173-179) and
`drop_specific_tables` (lines 195-200): print the error, then attempt
`cursor.execute("SET FOREIGN_KEY_CHECKS = 1;")`.  By the time the handler
runs, the `with` block has closed the cursor on its exceptional exit, so
the attempt raises `ProgrammingError` without reaching the server and the
bare `except: pass` swallows it. -/
def dropErrorHandler (o : Oracle) (w : World) : World :=
  (wExec o false "SET FOREIGN_KEY_CHECKS = 1;"
    (wPrint "Ошибка при удалении таблиц" w)).1

/-- `drop_all_tables` (src/cleaner.py lines 148-179).  `SHOW TABLES;` is run
by `get_all_tables` on a second, nested cursor; a raise anywhere inside the
`try` transfers to `dropErrorHandler`.  On a successful `DROP` the table
list becomes empty (on a failed one the model leaves it unchanged). -/
def drop_all_tables (o : Oracle) (w : World) : World :=
  let r1 := wExec o true "SET FOREIGN_KEY_CHECKS = 0;" w
  if !r1.2 then dropErrorHandler o r1.1 else
  let r2 := wExec o true "SHOW TABLES;" r1.1
  if !r2.2 then dropErrorHandler o r2.1 else
  let tbls := r2.1.tables
  if tbls.isEmpty then
    wPrint "В базе данных нет таблиц для удаления" r2.1
  else
  let w3 := wPrint ("Найдено таблиц для удаления: " ++ toString tbls.length) r2.1
  let r4 := wExec o true ("DROP TABLE " ++ String.intercalate ", " tbls ++ ";") w3
  if !r4.2 then dropErrorHandler o r4.1 else
  let w5 : World := { r4.1 with tables := [] }
  let r6 := wExec o true "SET FOREIGN_KEY_CHECKS = 1;" w5
  if !r6.2 then dropErrorHandler o r6.1 else
  wPrint ("Все таблицы (" ++ toString tbls.length ++ ") успешно удалены") r6.1

/-- The `for table in tables_list` loop of `drop_specific_tables`
(lines 188-190).  Returns `false` when some statement raised (the loop
stops, the exception travels to the handler). -/
def dropListLoop (o : Oracle) : List String → World → World × Bool
  | [], w => (w, true)
  | t :: rest, w =>
    let r := wExec o true ("DROP TABLE IF EXISTS " ++ t ++ ";") w
    if !r.2 then (r.1, false) else
    dropListLoop o rest
      (wPrint ("Таблица " ++ t ++ " удалена")
        { r.1 with tables := r.1.tables.filter (fun x => !(x == t)) })

/-- `drop_specific_tables` (src/cleaner.py lines 182-200). -/
def drop_specific_tables (o : Oracle) (tablesList : List String) (w : World) :
    World :=
  let r1 := wExec o true "SET FOREIGN_KEY_CHECKS = 0;" w
  if !r1.2 then dropErrorHandler o r1.1 else
  let r2 := dropListLoop o tablesList r1.1
  if !r2.2 then dropErrorHandler o r2.1 else
  let r3 := wExec o true "SET FOREIGN_KEY_CHECKS = 1;" r2.1
  if !r3.2 then dropErrorHandler o r3.1 else
  wPrint ("Указанные таблицы (" ++ toString tablesList.length ++ ") успешно удалены")
    r3.1

/-- The `for table in tables_list` loop of `truncate_tables`
(lines 207-209). -/
def truncLoop (o : Oracle) : List String → World → World × Bool
  | [], w => (w, true)
  | t :: rest, w =>
    let r := wExec o true ("TRUNCATE TABLE " ++ t ++ ";") w
    if !r.2 then (r.1, false) else
    truncLoop o rest (wPrint ("Таблица " ++ t ++ " очищена") r.1)

/-- `truncate_tables` (src/cleaner.py lines 203-215): truncate each listed
table, then one `connection.commit()`; any raise skips to the error print. -/
def truncate_tables (o : Oracle) (tablesList : List String) (w : World) :
    World :=
  let r := truncLoop o tablesList w
  if !r.2 then wPrint "Ошибка при очистке таблиц" r.1 else
  let rc := wCommit o r.1
  if !rc.2 then wPrint "Ошибка при очистке таблиц" rc.1 else
  wPrint "Указанные таблицы успешно очищены" rc.1

/-- `clean_database` (src/cleaner.py lines 218-260): connect (on failure
print and return - the `finally` close is not reached because the `try`
was never entered), then dispatch on the mode with the confirmation gates
of lines 231-244, and close the connection in `finally`. -/
def clean_database (o : Oracle) (s : Settings) (w : World) : World :=
  let rc := wConnect o w
  if !rc.2 then wPrint "Ошибка подключения к БД" rc.1 else
  let mode := s.database.mode
  let tablesList := s.database.tables
  let w2 :=
    if mode == "drop_all" then
      if s.security.confirm_destructive_operations then
        let rp := wPrompt o "Будут удалены ВСЕ таблицы в базе данных!" rc.1
        if !rp.2 then wPrint "Операция отменена пользователем" rp.1
        else drop_all_tables o (wPrint "Режим: УДАЛЕНИЕ ВСЕХ ТАБЛИЦ" rp.1)
      else drop_all_tables o (wPrint "Режим: УДАЛЕНИЕ ВСЕХ ТАБЛИЦ" rc.1)
    else if mode == "drop_list" then
      if s.security.confirm_destructive_operations && !tablesList.isEmpty then
        let rp := wPrompt o
          ("Будут удалены таблицы: " ++ String.intercalate ", " tablesList) rc.1
        if !rp.2 then wPrint "Операция отменена пользователем" rp.1
        else drop_specific_tables o tablesList
          (wPrint "Режим: УДАЛЕНИЕ УКАЗАННЫХ ТАБЛИЦ" rp.1)
      else drop_specific_tables o tablesList
        (wPrint "Режим: УДАЛЕНИЕ УКАЗАННЫХ ТАБЛИЦ" rc.1)
    else if mode == "truncate" then
      truncate_tables o tablesList (wPrint "Режим: ОЧИСТКА УКАЗАННЫХ ТАБЛИЦ" rc.1)
    else wPrint ("Неизвестный режим работы с БД: " ++ mode) rc.1
  wEmit .closeConn w2

/-- `show_database_info` (src/cleaner.py lines 366-387): connect, list the
tables, print a summary, close. -/
def show_database_info (o : Oracle) (s : Settings) (w : World) : World :=
  let rc := wConnect o w
  if !rc.2 then wPrint "Ошибка подключения к БД" rc.1 else
  let r := wExec o true "SHOW TABLES;" rc.1
  let w3 :=
    if !r.2 then wPrint "Ошибка при получении информации о БД" r.1
    else
      let wa := wPrint ("Текущее количество таблиц в базе " ++
        s.database.database_name ++ ": " ++ toString r.1.tables.length) r.1
      if r.1.tables.isEmpty then wPrint "В базе данных нет таблиц" wa
      else wPrint ("Список таблиц: " ++ String.intercalate ", " r.1.tables) wa
  wEmit .closeConn w3

/-! ## Filesystem helpers (`os.path`) -/

/-- `os.path.join(a, b)` for POSIX: an absolute `b` wins; otherwise insert a
separator unless `a` already ends with one. -/
def pyJoin (a b : String) : String :=
  if b.startsWith "/" then b
  else if a.isEmpty then b
  else if a.endsWith "/" then a ++ b
  else a ++ "/" ++ b

/-- Python `s.rstrip('/')`. -/
def pyRstripSlash (s : String) : String :=
  String.mk ((s.toList.reverse.dropWhile (fun c => c == '/')).reverse)

/-- `os.path.basename`: the part after the last separator. -/
def pyBasename (s : String) : String :=
  String.mk ((s.toList.reverse.takeWhile (fun c => !(c == '/'))).reverse)

/-! ## Folder cleaning (`clean_folders`, lines 263-285) -/

/-- Handling of one direct child of a cleaned folder (lines 273-280):
files are unlinked, directories removed recursively, anything else is left
alone. -/
def cleanFolderItemEvents (fs : Fs) (folder item : String) : List Ev :=
  let p := pyJoin folder item
  if fs.isfile p then [.unlinkEv p, .printMsg ("Удален файл: " ++ p)]
  else if fs.isdir p then [.rmtreeEv p, .printMsg ("Удалена папка: " ++ p)]
  else []

/-- The per-folder body of `clean_folders` (lines 270-283): a missing folder
is only reported. -/
def cleanFolderEvents (fs : Fs) (folder : String) : List Ev :=
  if fs.pathExists folder then
    ((fs.listdir folder).flatMap (cleanFolderItemEvents fs folder)) ++
      [.printMsg ("Папка " ++ folder ++ " очищена")]
  else [.printMsg ("Папка не существует: " ++ folder)]

/-- `clean_folders` (src/cleaner.py lines 263-285): one confirmation prompt
covers the whole batch; a declined prompt cleans nothing. -/
def clean_folders (o : Oracle) (fs : Fs) (foldersToClean : List String)
    (s : Settings) (w : World) : World :=
  if s.security.confirm_destructive_operations && !foldersToClean.isEmpty then
    let rp := wPrompt o
      ("Будет очищено содержимое папок: " ++ String.intercalate ", " foldersToClean) w
    if !rp.2 then wPrint "Операция отменена пользователем" rp.1
    else { rp.1 with events := rp.1.events ++ foldersToClean.flatMap (cleanFolderEvents fs) }
  else { w with events := w.events ++ foldersToClean.flatMap (cleanFolderEvents fs) }

/-! ## Privilege-delegated execution and copy propagation -/

/-- The command actually launched by `run_as_user` (lines 91-101): prefixed
with `sudo -u <user>` when a user is configured and differs from the current
one. -/
def runAsUserCmd (username curUser : String) (cmd : List String) : List String :=
  if !username.isEmpty && !(username == curUser) then
    "sudo" :: "-u" :: username :: cmd
  else cmd

/-- `run_as_user` (src/cleaner.py lines 91-101): returns the produced events
and whether the subprocess exited 0. -/
def run_as_user (o : Oracle) (cmd : List String) (username : String) :
    List Ev × Bool :=
  let full := runAsUserCmd username o.curUser cmd
  let pre : List Ev :=
    if !username.isEmpty && !(username == o.curUser) then
      [.printMsg ("Выполнение от пользователя " ++ username)]
    else []
  (pre ++ [.runCmd full (o.runOk full)], o.runOk full)

/-- Copying one child item of a source folder (lines 331-358): delegated
`rsync`/`cp` when a copy-user is configured, in-process
`copytree`/`copy2` otherwise (a pre-existing destination directory is
removed first). -/
def copyItemEvents (fs : Fs) (o : Oracle) (copyUser srcFolder destFolder item : String) :
    List Ev :=
  let sourcePath := pyJoin srcFolder item
  let destPath := pyJoin destFolder item
  if !copyUser.isEmpty then
    if fs.isdir sourcePath then
      let r := run_as_user o ["rsync", "-ar", sourcePath ++ "/", destPath ++ "/"] copyUser
      r.1 ++ [if r.2 then .printMsg ("  Скопировано: " ++ item)
              else .printMsg ("  Ошибка копирования " ++ item)]
    else
      let r := run_as_user o ["cp", "-p", sourcePath, destPath] copyUser
      r.1 ++ [if r.2 then .printMsg ("  Скопировано: " ++ item)
              else .printMsg ("  Ошибка копирования " ++ item)]
  else
    if fs.isdir sourcePath then
      (if fs.pathExists destPath then [.rmtreeEv destPath] else []) ++
        [.copytreeEv sourcePath destPath, .printMsg ("  Скопирована папка: " ++ item)]
    else [.copy2Ev sourcePath destPath, .printMsg ("  Скопирован файл: " ++ item)]

/-- The per-pair body of `copy_files_to_cleaned_folders` (lines 304-363):
a destination outside the clean-list is warned about and skipped; a missing
source is reported and skipped; otherwise the destination is created when
absent (by `mkdir -p` under the copy-user, else `os.makedirs`) and every
child of the source is copied. -/
def copyPairEvents (fs : Fs) (o : Oracle) (foldersToClean : List String)
    (copyUser : String) (p : String × String) : List Ev :=
  let src := p.1
  let dest := p.2
  if !foldersToClean.contains dest then
    [.printMsg ("Предупреждение: целевая папка " ++ dest ++ " не была в списке очищаемых")]
  else if !fs.pathExists src then
    [.printMsg ("Исходная папка не существует: " ++ src)]
  else
    let mk : List Ev × Bool :=
      if !fs.pathExists dest then
        if !copyUser.isEmpty then
          let r := run_as_user o ["mkdir", "-p", dest] copyUser
          (Ev.printMsg ("Создаем целевую папку: " ++ dest) :: r.1 ++
            (if r.2 then [] else [Ev.printMsg "Ошибка создания папки"]), r.2)
        else ([Ev.printMsg ("Создаем целевую папку: " ++ dest), Ev.mkdirs dest], true)
      else ([], true)
    if !mk.2 then mk.1 else
    mk.1 ++ [Ev.printMsg ("Копирование из " ++ src ++ " в " ++ dest)] ++
      (if fs.isdir src then
        (fs.listdir src).flatMap (copyItemEvents fs o copyUser src dest)
      else []) ++
      [Ev.printMsg ("Копирование в " ++ dest ++ " завершено")]

/-- `copy_files_to_cleaned_folders` (src/cleaner.py lines 288-363): nothing
happens unless both lists are non-empty and of equal length; then every
index-aligned pair is processed independently. -/
def copy_files_to_cleaned_folders (fs : Fs) (o : Oracle) (s : Settings)
    (w : World) : World :=
  let srcs := s.folders.copy_sources
  let dsts := s.folders.copy_destinations
  if srcs.isEmpty || dsts.isEmpty then
    wPrint "Не указаны папки для копирования" w
  else if !(srcs.length == dsts.length) then
    wPrint "Количество исходных и целевых папок для копирования не совпадает" w
  else
    { w with events := w.events ++
        (srcs.zip dsts).flatMap (copyPairEvents fs o s.folders.clean s.folders.copy_user) }

/-! ## Backup (`create_backup`, lines 390-423) -/

/-- Backing up one source folder (lines 406-416): directories via
`copytree`, files via `copy2`, missing sources silently skipped. -/
def backupFolderEvents (fs : Fs) (backupDir sourceFolder : String) : List Ev :=
  if fs.pathExists sourceFolder then
    let folderName := pyBasename (pyRstripSlash sourceFolder)
    let backupPath := pyJoin backupDir folderName
    if fs.isdir sourceFolder then
      [.copytreeEv sourceFolder backupPath,
       .printMsg ("  Резервная копия создана: " ++ sourceFolder ++ " -> " ++ backupPath)]
    else
      [.copy2Ev sourceFolder backupPath,
       .printMsg ("  Резервная копия создана: " ++ sourceFolder ++ " -> " ++ backupPath)]
  else []

/-- `create_backup` (src/cleaner.py lines 390-423).  When backups are
disabled only a message is printed and `None` is returned.  Otherwise the
backup root is the configured directory, or a timestamped one under `/tmp`
(`now` stands for the formatted `datetime.now()`).  The filesystem calls of
the `try` block are modelled as succeeding; per-source failures would only
change the returned trace, not the disabled-branch behaviour verified
here. -/
def create_backup (fs : Fs) (s : Settings) (now : String)
    (sourceFolders : List String) (w : World) : Option String × World :=
  if !s.backup.enable then
    (none, wPrint "Резервное копирование отключено в настройках" w)
  else
    let backupDir := if s.backup.backup_dir.isEmpty then "/tmp/backup_" ++ now
      else s.backup.backup_dir
    let evs := Ev.mkdirs backupDir ::
      Ev.printMsg ("Создание резервной копии в " ++ backupDir) ::
      (sourceFolders.flatMap (backupFolderEvents fs backupDir) ++
        [Ev.printMsg "Резервное копирование завершено"])
    (some backupDir, { w with events := w.events ++ evs })

/-! ## The orchestrator (`__main__`, lines 462-516)

The model starts after `print_settings_summary` (the summary is a fixed
sequence of prints of the settings, touched by no claim) and covers the
backup, database, folder-cleaning and copy phases in order. -/

/-- The deduplicated union `list(set(clean + copy_sources))` of line 479.
Python's set order is unspecified; `List.dedup` (keep first occurrences) is
the canonical representative - no claim depends on this order. -/
def backupSourceFolders (s : Settings) : List String :=
  (s.folders.clean ++ s.folders.copy_sources).dedup

/-- Lines 476-483: either run `create_backup` or print that backups are
off.  Returns the backup path (for the final message) and the new world. -/
def backupPhase (fs : Fs) (s : Settings) (now : String) (w : World) :
    Option String × World :=
  if s.backup.enable then
    create_backup fs s now (backupSourceFolders s)
      (wPrint "=== Резервное копирование ===" w)
  else (none, wPrint "Резервное копирование отключено в настройках" w)

/-- Lines 489-494: the database phase runs only when a database name is
configured. -/
def dbCleanPhase (o : Oracle) (s : Settings) (w : World) : World :=
  if !s.database.database_name.isEmpty then
    clean_database o s
      (wPrint ("=== Работа с базой данных (режим: " ++ s.database.mode ++ ") ===") w)
  else wPrint "Имя базы данных не указано, пропускаем очистку БД" w

/-- Lines 500-505: the folder-cleaning phase. -/
def foldersCleanPhase (o : Oracle) (fs : Fs) (s : Settings) (w : World) : World :=
  if !s.folders.clean.isEmpty then
    clean_folders o fs s.folders.clean s (wPrint "=== Очистка файловой системы ===" w)
  else wPrint "Нет папок для очистки" w

/-- Lines 507-512: the copy-propagation phase. -/
def copyPhase (fs : Fs) (o : Oracle) (s : Settings) (w : World) : World :=
  if !s.folders.copy_sources.isEmpty && !s.folders.copy_destinations.isEmpty then
    copy_files_to_cleaned_folders fs o s
      (wPrint "=== Копирование файлов в очищенные папки ===" w)
  else wPrint "Нет файлов для копирования" w

/-- Lines 485-516 after the backup phase: DB state before, database phase,
DB state after, folder cleaning, copy propagation, final messages. -/
def mainRestPhases (o : Oracle) (fs : Fs) (s : Settings) (bp : Option String)
    (w : World) : World :=
  let w2 := show_database_info o s (wPrint "=== Состояние БД ДО очистки ===" w)
  let w3 := dbCleanPhase o s w2
  let w4 := show_database_info o s (wPrint "=== Состояние БД ПОСЛЕ очистки ===" w3)
  let w5 := foldersCleanPhase o fs s w4
  let w6 := copyPhase fs o s w5
  let w7 := wPrint "Очистка и копирование завершены" w6
  match bp with
  | some p => wPrint ("Резервная копия создана в: " ++ p) w7
  | none => w7

/-- The whole run from line 476 on. -/
def mainAfterSummary (o : Oracle) (fs : Fs) (s : Settings) (now : String)
    (w : World) : World :=
  let b := backupPhase fs s now w
  mainRestPhases o fs s b.1 b.2

/-! ## Vocabulary used by the claim statements -/

/-- Events that are interactive confirmation prompts. -/
def isPromptEv : Ev → Bool
  | .promptUser _ _ => true
  | _ => false

/-- Events that are transaction commits. -/
def isCommitEv : Ev → Bool
  | .commitTx _ => true
  | _ => false

/-- Events that send a `DROP ...` statement to the server (prefix test on
the character list). -/
def isDropExec : Ev → Bool
  | .exec stmt _ => stmt.toList.take 4 == ['D', 'R', 'O', 'P']
  | _ => false

/-- An event is database-safe when it sends nothing to the server except
`SHOW TABLES;` - in particular it is no destructive SQL statement. -/
def dbSafeEv : Ev → Bool
  | .exec stmt _ => stmt == "SHOW TABLES;"
  | _ => true

/-- Number of confirmation prompts in a trace. -/
def promptCount (evs : List Ev) : Nat :=
  evs.countP isPromptEv

/-- The gate condition of the spec: confirmation is required for `drop_all`,
and for `drop_list` with a non-empty table list. -/
def confirmGate (s : Settings) : Bool :=
  s.security.confirm_destructive_operations &&
    (s.database.mode == "drop_all" ||
      (s.database.mode == "drop_list" && !s.database.tables.isEmpty))

/-- Quoting style of one config token. -/
inductive QuoteStyle where
  | bare
  | double
  | single
  deriving DecidableEq

/-- Wrap one token in its quoting style. -/
def applyQuote : QuoteStyle → List Char → List Char
  | .bare, t => t
  | .double, t => dquote :: (t ++ [dquote])
  | .single, t => squote :: (t ++ [squote])

/-- A comma-separated config field made of styled tokens. -/
def joinField : List (QuoteStyle × List Char) → List Char
  | [] => []
  | [p] => applyQuote p.1 p.2
  | p :: ps => applyQuote p.1 p.2 ++ ',' :: ' ' :: joinField ps

/-- A plain token character: no comma, no whitespace, no quote of either
kind. -/
def plainChar (c : Char) : Bool :=
  isBareChar c && !(c == dquote) && !(c == squote)

/-- A plain token: non-empty and made of plain characters. -/
def plainTok (t : List Char) : Bool :=
  !t.isEmpty && t.all plainChar

/-! ## Concrete fixtures for witnesses and counterexamples -/

/-- An oracle whose statements all succeed, connections succeed, prompts are
accepted, subprocesses exit 0. -/
def oracleAllOk : Oracle :=
  { execOk := fun _ => true, connOk := fun _ => true,
    promptYes := fun _ => true, runOk := fun _ => true, curUser := "root" }

/-- An oracle that fails exactly the `k`-th statement sent to the server. -/
def oracleFailAt (k : Nat) : Oracle :=
  { execOk := fun n => !(n == k), connOk := fun _ => true,
    promptYes := fun _ => true, runOk := fun _ => true, curUser := "root" }

/-- An oracle that declines every confirmation prompt. -/
def oracleDecline : Oracle :=
  { execOk := fun _ => true, connOk := fun _ => true,
    promptYes := fun _ => false, runOk := fun _ => true, curUser := "root" }

/-- A filesystem snapshot where nothing exists. -/
def fsEmpty : Fs :=
  { pathExists := fun _ => false, isdir := fun _ => false,
    isfile := fun _ => false, listdir := fun _ => [] }

/-- The `database` section of `settingsTruncate`. -/
def dbTruncate : DbSettings :=
  { host := "localhost"
    user := "root"
    password := ""
    database_name := "bitrix"
    mode := "truncate"
    tables := ["users", "sessions"]
    auth_plugin := none }

/-- Settings fixture: truncate mode over two tables, no confirmation. -/
def settingsTruncate : Settings :=
  { database := dbTruncate
    folders := { clean := [], copy_sources := [], copy_destinations := [], copy_user := "" }
    backup := { enable := false, backup_dir := "" }
    security := { confirm_destructive_operations := false } }

/-- Settings fixture: drop_all mode with confirmation enabled. -/
def settingsDropAll : Settings :=
  { settingsTruncate with
    database := { dbTruncate with mode := "drop_all" }
    security := { confirm_destructive_operations := true } }

/-- Settings fixture: a copy pair whose destination is not in the
clean-list. -/
def settingsCopyBadDest : Settings :=
  { settingsTruncate with
    folders := { clean := ["/tmp/a"]
                 copy_sources := ["/tmp/src", "/tmp/src2"]
                 copy_destinations := ["/tmp/a", "/tmp/b"]
                 copy_user := "" } }

/-- Settings fixture: copy lists of different lengths. -/
def settingsCopyMismatch : Settings :=
  { settingsTruncate with
    folders := { clean := ["/tmp/a"]
                 copy_sources := ["/tmp/src", "/tmp/src2"]
                 copy_destinations := ["/tmp/a"]
                 copy_user := "" } }

/-- Settings fixture: no database name configured. -/
def settingsNoDb : Settings :=
  { settingsTruncate with database := { dbTruncate with database_name := "" } }

/-! # Theorems -/

/-- C1: the spec claims that for every run of `drop_all` or `drop_list`,
`SET FOREIGN_KEY_CHECKS = 1` is executed before the operation returns even
when the `DROP` raises.  The code does not achieve this: on every error
path the handler's `cursor.execute` hits the cursor already closed by the
`with` block, raises, and is swallowed - the statement never reaches the
server (the `Ev.progErr` event); and the zero-table path of `drop_all`
returns without any re-enable attempt at all.  This theorem evaluates the
embedded code on the three failing runs: `drop_all` whose `DROP` fails,
`drop_list` whose `DROP TABLE IF EXISTS` fails, and `drop_all` over an
empty database. -/
theorem c1_fk_reenable_never_reaches_server :
    ((drop_all_tables (oracleFailAt 2) (initWorld ["t1"])).events =
        [.exec "SET FOREIGN_KEY_CHECKS = 0;" true, .exec "SHOW TABLES;" true,
         .printMsg "Найдено таблиц для удаления: 1", .exec "DROP TABLE t1;" false,
         .printMsg "Ошибка при удалении таблиц", .progErr "SET FOREIGN_KEY_CHECKS = 1;"] ∧
      Ev.exec "SET FOREIGN_KEY_CHECKS = 1;" true ∉
        (drop_all_tables (oracleFailAt 2) (initWorld ["t1"])).events ∧
      Ev.exec "SET FOREIGN_KEY_CHECKS = 1;" false ∉
        (drop_all_tables (oracleFailAt 2) (initWorld ["t1"])).events) ∧
    ((drop_specific_tables (oracleFailAt 1) ["t1"] (initWorld ["t1"])).events =
        [.exec "SET FOREIGN_KEY_CHECKS = 0;" true,
         .exec "DROP TABLE IF EXISTS t1;" false,
         .printMsg "Ошибка при удалении таблиц", .progErr "SET FOREIGN_KEY_CHECKS = 1;"] ∧
      Ev.exec "SET FOREIGN_KEY_CHECKS = 1;" true ∉
        (drop_specific_tables (oracleFailAt 1) ["t1"] (initWorld ["t1"])).events ∧
      Ev.exec "SET FOREIGN_KEY_CHECKS = 1;" false ∉
        (drop_specific_tables (oracleFailAt 1) ["t1"] (initWorld ["t1"])).events) ∧
    ((drop_all_tables oracleAllOk (initWorld [])).events =
        [.exec "SET FOREIGN_KEY_CHECKS = 0;" true, .exec "SHOW TABLES;" true,
         .printMsg "В базе данных нет таблиц для удаления"] ∧
      Ev.exec "SET FOREIGN_KEY_CHECKS = 1;" true ∉
        (drop_all_tables oracleAllOk (initWorld [])).events ∧
      Ev.progErr "SET FOREIGN_KEY_CHECKS = 1;" ∉
        (drop_all_tables oracleAllOk (initWorld [])).events) := by
  decide

/-- C3: in `drop_all` mode over a database with zero tables, the operation
is a no-op that prints a message, issues no `DROP` statement, and leaves
the table list untouched. -/
theorem c3_drop_all_zero_tables (o : Oracle) (w : World) (h0 : w.tables = [])
    (h1 : o.execOk w.step = true) (h2 : o.execOk (w.step + 1) = true) :
    drop_all_tables o w =
      { w with
        events := w.events ++ [.exec "SET FOREIGN_KEY_CHECKS = 0;" true,
          .exec "SHOW TABLES;" true,
          .printMsg "В базе данных нет таблиц для удаления"]
        step := w.step + 2 } ∧
    ∀ e ∈ (drop_all_tables o w).events, isDropExec e = true → e ∈ w.events := by
  have hmain : drop_all_tables o w =
      { w with
        events := w.events ++ [.exec "SET FOREIGN_KEY_CHECKS = 0;" true,
          .exec "SHOW TABLES;" true,
          .printMsg "В базе данных нет таблиц для удаления"]
        step := w.step + 2 } := by
    cases w with
    | mk ts evs st cn pr =>
      simp only [World.mk.injEq] at h0 ⊢
      simp [drop_all_tables, wExec, wPrint, wEmit, h0, h1, h2, List.append_assoc]
  refine ⟨hmain, ?_⟩
  rw [hmain]
  intro e he hd
  simp only [List.mem_append, List.mem_cons, List.not_mem_nil, or_false] at he
  rcases he with he | he | he | he
  · exact he
  all_goals subst he
  all_goals exact absurd hd (by decide)

/-- C3 witness: the concrete zero-table run. -/
theorem c3_drop_all_zero_tables_witness :
    (drop_all_tables oracleAllOk (initWorld [])).events =
      [.exec "SET FOREIGN_KEY_CHECKS = 0;" true, .exec "SHOW TABLES;" true,
       .printMsg "В базе данных нет таблиц для удаления"] := by
  have h := c3_drop_all_zero_tables oracleAllOk (initWorld []) rfl rfl rfl
  rw [h.1]
  rfl

/-- The per-table trace of a successful truncate. -/
def truncItemEvents (t : String) : List Ev :=
  [.exec ("TRUNCATE TABLE " ++ t ++ ";") true,
   .printMsg ("Таблица " ++ t ++ " очищена")]

/-- The truncate loop under an oracle that accepts every `TRUNCATE`
statement: each listed table is truncated in order and the loop reports
success. -/
theorem truncLoop_all_ok (o : Oracle) : ∀ (ts : List String) (w : World),
    (∀ i, i < ts.length → o.execOk (w.step + i) = true) →
    truncLoop o ts w =
      ({ w with events := w.events ++ ts.flatMap truncItemEvents, step := w.step + ts.length }, true) := by
  intro ts
  induction ts with
  | nil => intro w _; simp [truncLoop]
  | cons t rest ih =>
    intro w h
    have h0 : o.execOk w.step = true := by simpa using h 0 (Nat.succ_pos _)
    have hshift : ∀ i, i < rest.length → o.execOk (w.step + 1 + i) = true := by
      intro i hi
      have hx := h (i + 1) (Nat.succ_lt_succ hi)
      rwa [show w.step + 1 + i = w.step + (i + 1) by omega]
    have ihw := ih { w with events := w.events ++ truncItemEvents t, step := w.step + 1 } hshift
    simp only [truncLoop, wExec, wPrint, wEmit, h0, truncItemEvents] at ihw ⊢
    simp only [if_true, Bool.not_true, Bool.false_eq_true, if_false, ite_true, ite_false] at ihw ⊢
    simp only [List.append_assoc, List.cons_append, List.nil_append] at ihw ⊢
    rw [ihw, show w.step + 1 + rest.length = w.step + (rest.length + 1) from by omega]
    simp [truncItemEvents]

/-- C5: in truncate mode each configured table is truncated by its own
`TRUNCATE TABLE` statement, in list order, and exactly one commit happens,
after the loop over all tables. -/
theorem c5_truncate_order_and_single_commit (o : Oracle) (ts : List String)
    (w : World) (h : ∀ i, i < ts.length → o.execOk (w.step + i) = true) :
    (truncate_tables o ts w).events =
      w.events ++ ts.flatMap truncItemEvents ++
        [.commitTx (o.execOk (w.step + ts.length))] ++
        (if o.execOk (w.step + ts.length) then
          [.printMsg "Указанные таблицы успешно очищены"]
        else [.printMsg "Ошибка при очистке таблиц"]) ∧
    (truncate_tables o ts w).events.countP isCommitEv =
      w.events.countP isCommitEv + 1 := by
  have hloop := truncLoop_all_ok o ts w h
  have hmain : (truncate_tables o ts w).events =
      w.events ++ ts.flatMap truncItemEvents ++
        [.commitTx (o.execOk (w.step + ts.length))] ++
        (if o.execOk (w.step + ts.length) then
          [.printMsg "Указанные таблицы успешно очищены"]
        else [.printMsg "Ошибка при очистке таблиц"]) := by
    by_cases hc : o.execOk (w.step + ts.length) = true
    · simp [truncate_tables, hloop, wCommit, wPrint, wEmit, hc]
    · simp only [Bool.not_eq_true] at hc
      simp [truncate_tables, hloop, wCommit, wPrint, wEmit, hc]
  refine ⟨hmain, ?_⟩
  rw [hmain]
  have hflat : (ts.flatMap truncItemEvents).countP isCommitEv = 0 := by
    rw [List.countP_eq_zero]
    intro e he
    rcases List.mem_flatMap.1 he with ⟨t, _, ht⟩
    simp only [truncItemEvents, List.mem_cons, List.not_mem_nil, or_false] at ht
    rcases ht with rfl | rfl <;> simp [isCommitEv]
  by_cases hc : o.execOk (w.step + ts.length) = true <;>
    simp [hc, List.countP_append, hflat, isCommitEv, List.countP_cons]

/-- C5 witness: the spec's scenario - `mode=truncate`,
`tables=["users","sessions"]`, no confirmation; both tables truncated, one
commit after the loop. -/
theorem c5_truncate_order_and_single_commit_witness :
    (truncate_tables oracleAllOk ["users", "sessions"] (initWorld ["users", "sessions"])).events =
      [.exec "TRUNCATE TABLE users;" true, .printMsg "Таблица users очищена",
       .exec "TRUNCATE TABLE sessions;" true, .printMsg "Таблица sessions очищена",
       .commitTx true, .printMsg "Указанные таблицы успешно очищены"] ∧
    (truncate_tables oracleAllOk ["users", "sessions"] (initWorld ["users", "sessions"])).events.countP isCommitEv = 1 := by
  have h := c5_truncate_order_and_single_commit oracleAllOk ["users", "sessions"]
    (initWorld ["users", "sessions"]) (fun i _ => rfl)
  refine ⟨?_, ?_⟩
  · rw [h.1]; rfl
  · rw [h.2]; rfl


/-- The drop error handler issues no prompt. -/
theorem promptCount_dropErrorHandler (o : Oracle) (w : World) :
    promptCount (dropErrorHandler o w).events = promptCount w.events := by
  simp [dropErrorHandler, wExec, wPrint, wEmit, promptCount,
    List.countP_append, List.countP_cons, List.countP_nil, isPromptEv]

/-- `drop_all_tables` issues no prompt. -/
theorem promptCount_drop_all_tables (o : Oracle) (w : World) :
    promptCount (drop_all_tables o w).events = promptCount w.events := by
  cases h1 : o.execOk w.step <;>
    cases h2 : o.execOk (w.step + 1) <;>
      cases h3 : w.tables.isEmpty <;>
        cases h4 : o.execOk (w.step + 2) <;>
          cases h5 : o.execOk (w.step + 3) <;>
            simp [drop_all_tables, wExec, dropErrorHandler, wPrint, wEmit,
              promptCount, List.countP_append, List.countP_cons, List.countP_nil,
              isPromptEv, h1, h2, h3, h4, h5]

/-- The `drop_list` loop issues no prompt. -/
theorem promptCount_dropListLoop (o : Oracle) : ∀ (ts : List String) (w : World),
    promptCount (dropListLoop o ts w).1.events = promptCount w.events := by
  intro ts
  induction ts with
  | nil => intro w; simp [dropListLoop]
  | cons t rest ih =>
    intro w
    cases h : o.execOk w.step with
    | false =>
      simp [dropListLoop, wExec, wPrint, wEmit, h, promptCount,
        List.countP_append, List.countP_cons, List.countP_nil, isPromptEv]
    | true =>
      have ihw := ih { w with tables := w.tables.filter (fun x => !(x == t)), events := w.events ++ [Ev.exec ("DROP TABLE IF EXISTS " ++ t ++ ";") true, Ev.printMsg ("Таблица " ++ t ++ " удалена")], step := w.step + 1 }
      simp [dropListLoop, wExec, wPrint, wEmit, h, promptCount,
        List.countP_append, List.countP_cons, List.countP_nil, isPromptEv] at ihw ⊢
      omega

/-- `drop_specific_tables` issues no prompt. -/
theorem promptCount_drop_specific_tables (o : Oracle) (ts : List String) (w : World) :
    promptCount (drop_specific_tables o ts w).events = promptCount w.events := by
  unfold drop_specific_tables
  cases h1 : o.execOk w.step with
  | false =>
    simp [wExec, h1, dropErrorHandler, wPrint, wEmit, promptCount,
      List.countP_append, List.countP_cons, List.countP_nil, isPromptEv]
  | true =>
    simp only [wExec, h1, if_true, Bool.not_true, Bool.false_eq_true, if_false,
      ite_true, ite_false]
    have hl := promptCount_dropListLoop o ts { w with events := w.events ++ [Ev.exec "SET FOREIGN_KEY_CHECKS = 0;" true], step := w.step + 1 }
    rcases hr : dropListLoop o ts { w with events := w.events ++ [Ev.exec "SET FOREIGN_KEY_CHECKS = 0;" true], step := w.step + 1 } with ⟨w2, ok2⟩
    rw [hr] at hl
    simp [promptCount, List.countP_append, List.countP_cons, List.countP_nil, isPromptEv] at hl
    cases ok2 with
    | false =>
      simp [dropErrorHandler, wExec, wPrint, wEmit, promptCount,
        List.countP_append, List.countP_cons, List.countP_nil, isPromptEv]
      omega
    | true =>
      cases h3 : o.execOk w2.step <;>
        simp [dropErrorHandler, wExec, wPrint, wEmit, h3, promptCount,
          List.countP_append, List.countP_cons, List.countP_nil, isPromptEv] <;>
        omega

/-- The truncate loop issues no prompt. -/
theorem promptCount_truncLoop (o : Oracle) : ∀ (ts : List String) (w : World),
    promptCount (truncLoop o ts w).1.events = promptCount w.events := by
  intro ts
  induction ts with
  | nil => intro w; simp [truncLoop]
  | cons t rest ih =>
    intro w
    cases h : o.execOk w.step with
    | false =>
      simp [truncLoop, wExec, wPrint, wEmit, h, promptCount,
        List.countP_append, List.countP_cons, List.countP_nil, isPromptEv]
    | true =>
      have ihw := ih { w with events := w.events ++ [Ev.exec ("TRUNCATE TABLE " ++ t ++ ";") true, Ev.printMsg ("Таблица " ++ t ++ " очищена")], step := w.step + 1 }
      simp [truncLoop, wExec, wPrint, wEmit, h, promptCount,
        List.countP_append, List.countP_cons, List.countP_nil, isPromptEv] at ihw ⊢
      omega

/-- `truncate_tables` issues no prompt. -/
theorem promptCount_truncate_tables (o : Oracle) (ts : List String) (w : World) :
    promptCount (truncate_tables o ts w).events = promptCount w.events := by
  unfold truncate_tables
  have hl := promptCount_truncLoop o ts w
  rcases hr : truncLoop o ts w with ⟨w2, ok2⟩
  rw [hr] at hl
  simp [promptCount, List.countP_append, List.countP_cons, List.countP_nil, isPromptEv] at hl
  cases ok2 with
  | false =>
    simp [wPrint, wEmit, promptCount, List.countP_append, List.countP_cons,
      List.countP_nil, isPromptEv]
    omega
  | true =>
    cases h3 : o.execOk w2.step <;>
      simp [wCommit, wPrint, wEmit, h3, promptCount, List.countP_append,
        List.countP_cons, List.countP_nil, isPromptEv] <;>
      omega



/-- Counting prompts: the empty trace. -/
theorem promptCount_nil : promptCount [] = 0 := rfl

/-- Counting prompts distributes over appends. -/
theorem promptCount_append (a b : List Ev) :
    promptCount (a ++ b) = promptCount a + promptCount b :=
  List.countP_append _ _ _

/-- Counting prompts over a cons. -/
theorem promptCount_cons (e : Ev) (l : List Ev) :
    promptCount (e :: l) = promptCount l + (if isPromptEv e then 1 else 0) :=
  List.countP_cons _ _ _

/-- C2: when the connection succeeds, `clean_database` issues the
confirmation prompt exactly when `security.confirm_destructive_operations`
is set and the mode is `drop_all`, or `drop_list` with a non-empty table
list; `truncate` mode never prompts (even counting failed connections); and
a declined prompt leaves the trace free of any SQL statement - only the
connect, the prompt, the cancellation message and the close happen. -/
theorem c2_confirmation_gate (o : Oracle) (s : Settings) (w : World) :
    (o.connOk w.conns = true →
      promptCount (clean_database o s w).events =
        promptCount w.events + (if confirmGate s then 1 else 0)) ∧
    (s.database.mode = "truncate" →
      promptCount (clean_database o s w).events = promptCount w.events) ∧
    (o.connOk w.conns = true → confirmGate s = true → o.promptYes w.prompts = false →
      ∃ m, (clean_database o s w).events =
        w.events ++ [.connectAttempt true, .promptUser m false,
          .printMsg "Операция отменена пользователем", .closeConn]) := by
  refine ⟨?_, ?_, ?_⟩
  · intro hc
    cases hm1 : s.database.mode == "drop_all" with
    | true =>
      cases hcf : s.security.confirm_destructive_operations with
      | true =>
        cases hp : o.promptYes w.prompts <;>
          simp [clean_database, wConnect, hc, hm1, hcf, hp, wPrompt, wPrint, wEmit,
            confirmGate, promptCount_drop_all_tables, promptCount_append,
            promptCount_cons, promptCount_nil, isPromptEv]
      | false =>
        simp [clean_database, wConnect, hc, hm1, hcf, wPrint, wEmit,
          confirmGate, promptCount_drop_all_tables, promptCount_append,
          promptCount_cons, promptCount_nil, isPromptEv]
    | false =>
      cases hm2 : s.database.mode == "drop_list" with
      | true =>
        cases hcf : s.security.confirm_destructive_operations &&
            !s.database.tables.isEmpty with
        | true =>
          cases hp : o.promptYes w.prompts <;>
            simp [clean_database, wConnect, hc, hm1, hm2, hcf, hp, wPrompt, wPrint,
              wEmit, confirmGate, promptCount_drop_specific_tables, promptCount_append,
              promptCount_cons, promptCount_nil, isPromptEv]
        | false =>
          simp [clean_database, wConnect, hc, hm1, hm2, hcf, wPrint, wEmit,
            confirmGate, promptCount_drop_specific_tables, promptCount_append,
            promptCount_cons, promptCount_nil, isPromptEv]
      | false =>
        cases hm3 : s.database.mode == "truncate" <;>
          simp [clean_database, wConnect, hc, hm1, hm2, hm3, wPrint, wEmit,
            confirmGate, promptCount_truncate_tables, promptCount_append,
            promptCount_cons, promptCount_nil, isPromptEv]
  · intro hm
    cases hc : o.connOk w.conns <;>
      simp [clean_database, wConnect, hc, hm, wPrint, wEmit,
        promptCount_truncate_tables, promptCount_append,
        promptCount_cons, promptCount_nil, isPromptEv]
  · intro hc hg hp
    simp only [confirmGate, Bool.and_eq_true, Bool.or_eq_true] at hg
    obtain ⟨hcf, hor⟩ := hg
    cases hm1 : s.database.mode == "drop_all" with
    | true =>
      refine ⟨"Будут удалены ВСЕ таблицы в базе данных!", ?_⟩
      simp [clean_database, wConnect, hc, hm1, hcf, hp, wPrompt, wPrint, wEmit]
    | false =>
      rcases hor with h | ⟨hm2, hne⟩
      · rw [hm1] at h; exact absurd h (by simp)
      · refine ⟨"Будут удалены таблицы: " ++ String.intercalate ", " s.database.tables, ?_⟩
        simp [clean_database, wConnect, hc, hm1, hm2, hcf, hne, hp, wPrompt, wPrint, wEmit]

/-- C2 witness: `drop_all` with confirmation enabled and a declining user -
the prompt is issued and nothing is executed. -/
theorem c2_confirmation_gate_witness :
    ∃ m, (clean_database oracleDecline settingsDropAll (initWorld ["t1"])).events =
      [.connectAttempt true, .promptUser m false,
       .printMsg "Операция отменена пользователем", .closeConn] := by
  have h := (c2_confirmation_gate oracleDecline settingsDropAll
    (initWorld ["t1"])).2.2 rfl (by decide) rfl
  simpa using h



/-- C6: whenever `copy_sources` and `copy_destinations` differ in length,
the copy-propagation step only prints a message - no pair is processed and
no filesystem operation happens. -/
theorem c6_length_mismatch_no_copy (fs : Fs) (o : Oracle) (s : Settings)
    (w : World)
    (h : s.folders.copy_sources.length ≠ s.folders.copy_destinations.length) :
    ∃ msg, copy_files_to_cleaned_folders fs o s w = wPrint msg w := by
  unfold copy_files_to_cleaned_folders
  by_cases he : (s.folders.copy_sources.isEmpty || s.folders.copy_destinations.isEmpty) = true
  · exact ⟨"Не указаны папки для копирования", by rw [if_pos he]⟩
  · have hb : (s.folders.copy_sources.length == s.folders.copy_destinations.length) = false :=
      beq_eq_false_iff_ne.2 h
    refine ⟨"Количество исходных и целевых папок для копирования не совпадает", ?_⟩
    rw [if_neg he, if_pos (by simp [hb])]

/-- C6 witness: two sources against one destination. -/
theorem c6_witness :
    ∃ msg, copy_files_to_cleaned_folders fsEmpty oracleAllOk settingsCopyMismatch
      (initWorld []) = wPrint msg (initWorld []) :=
  c6_length_mismatch_no_copy fsEmpty oracleAllOk settingsCopyMismatch (initWorld [])
    (by decide)

/-- C7: a pair whose destination is not in the clean-list contributes only
the warning print to the trace, and the pairs before and after it
contribute exactly what they would contribute on their own. -/
theorem c7_bad_dest_skipped (fs : Fs) (o : Oracle) (dbs : DbSettings)
    (bk : BackupSettings) (sec : SecuritySettings) (cleanList : List String)
    (user : String) (sa sb da db2 : List String) (src d : String) (w : World)
    (hlen1 : sa.length = da.length) (hlen2 : sb.length = db2.length)
    (hd : d ∉ cleanList) :
    copy_files_to_cleaned_folders fs o
      ⟨dbs, ⟨cleanList, sa ++ src :: sb, da ++ d :: db2, user⟩, bk, sec⟩ w =
      { w with events := w.events ++
          ((sa.zip da).flatMap (copyPairEvents fs o cleanList user) ++
            ([Ev.printMsg ("Предупреждение: целевая папка " ++ d ++ " не была в списке очищаемых")] ++
              (sb.zip db2).flatMap (copyPairEvents fs o cleanList user))) } := by
  have hc : cleanList.contains d = false := by simpa using hd
  have hzip : (sa ++ src :: sb).zip (da ++ d :: db2) =
      sa.zip da ++ (src, d) :: sb.zip db2 := by
    rw [List.zip_append hlen1]
    rfl
  have hlen : ((sa ++ src :: sb).length == (da ++ d :: db2).length) = true := by
    simp [hlen1, hlen2]
  have hpair : copyPairEvents fs o cleanList user (src, d) =
      [Ev.printMsg ("Предупреждение: целевая папка " ++ d ++ " не была в списке очищаемых")] := by
    simp [copyPairEvents, hc]
    intro hx
    exact absurd hx hd
  unfold copy_files_to_cleaned_folders
  rw [if_neg (by simp), if_neg (by simp [hlen1, hlen2])]
  simp only [hzip, List.flatMap_append, List.flatMap_cons, hpair]

/-- C8: with `backup.enable = false`, `create_backup` returns `None` and
only prints (no directory is created), and the whole run is the remaining
phases applied after that print. -/
theorem c8_backup_disabled (fs : Fs) (o : Oracle) (s : Settings) (now : String)
    (folders : List String) (w : World) (h : s.backup.enable = false) :
    create_backup fs s now folders w =
      (none, wPrint "Резервное копирование отключено в настройках" w) ∧
    mainAfterSummary o fs s now w =
      mainRestPhases o fs s none
        (wPrint "Резервное копирование отключено в настройках" w) := by
  constructor
  · simp [create_backup, h]
  · simp [mainAfterSummary, backupPhase, h]

/-- C8 witness: the disabled-backup fixture. -/
theorem c8_backup_disabled_witness :
    create_backup fsEmpty settingsTruncate "20260101" ["/tmp/a"] (initWorld []) =
      (none, wPrint "Резервное копирование отключено в настройках" (initWorld [])) :=
  (c8_backup_disabled fsEmpty oracleAllOk settingsTruncate "20260101" ["/tmp/a"]
    (initWorld []) rfl).1

/-- C9: every token produced by `parse_quoted_list` is non-empty, and a
missing or empty value parses to the empty list. -/
theorem c9_tokens_nonempty :
    (∀ v t, t ∈ parse_quoted_list v → t ≠ "") ∧
    parse_quoted_list none = [] ∧ parse_quoted_list (some "") = [] := by
  refine ⟨?_, rfl, rfl⟩
  intro v t ht
  cases v with
  | none => simp [parse_quoted_list] at ht
  | some s =>
    by_cases hs : s = ""
    · simp [parse_quoted_list, hs] at ht
    · simp only [parse_quoted_list, if_neg hs, parseTokens] at ht
      rcases List.mem_map.1 ht with ⟨m, hm, rfl⟩
      have hpred := List.of_mem_filter hm
      intro hcon
      have hm0 : m = [] := by simpa using congrArg String.data hcon
      rw [hm0] at hpred
      simp at hpred

/-- C9 witness. -/
theorem c9_tokens_nonempty_witness : ("a" : String) ≠ "" :=
  c9_tokens_nonempty.1 (some "a") "a" (by decide)

/-- C7 witness: second pair's destination `/tmp/b` is outside the
clean-list; only the warning is traced for it, the first pair is handled on
its own. -/
theorem c7_bad_dest_skipped_witness :
    copy_files_to_cleaned_folders fsEmpty oracleAllOk
      ⟨dbTruncate, ⟨["/tmp/a"], ["/tmp/src"] ++ "/tmp/src2" :: [], ["/tmp/a"] ++ "/tmp/b" :: [], ""⟩,
        ⟨false, ""⟩, ⟨false⟩⟩ (initWorld []) =
      { initWorld [] with events :=
          [Ev.printMsg "Исходная папка не существует: /tmp/src",
           Ev.printMsg "Предупреждение: целевая папка /tmp/b не была в списке очищаемых"] } := by
  have h := c7_bad_dest_skipped fsEmpty oracleAllOk dbTruncate ⟨false, ""⟩ ⟨false⟩
    ["/tmp/a"] "" ["/tmp/src"] [] ["/tmp/a"] [] "/tmp/src2" "/tmp/b" (initWorld [])
    rfl rfl (by decide)
  rw [h]
  decide



/-- `takeWhile` over an append whose first part satisfies the predicate. -/
theorem takeWhile_append_all (p : Char → Bool) : ∀ (l1 l2 : List Char),
    (∀ c ∈ l1, p c = true) → (l1 ++ l2).takeWhile p = l1 ++ l2.takeWhile p := by
  intro l1
  induction l1 with
  | nil => intro l2 _; simp
  | cons c l ih =>
    intro l2 h
    have hc : p c = true := h c (List.mem_cons_self c l)
    simp [List.takeWhile_cons, hc, ih l2 (fun x hx => h x (List.mem_cons_of_mem c hx))]

/-- `dropWhile` over an append whose first part satisfies the predicate. -/
theorem dropWhile_append_all (p : Char → Bool) : ∀ (l1 l2 : List Char),
    (∀ c ∈ l1, p c = true) → (l1 ++ l2).dropWhile p = l2.dropWhile p := by
  intro l1
  induction l1 with
  | nil => intro l2 _; simp
  | cons c l ih =>
    intro l2 h
    have hc : p c = true := h c (List.mem_cons_self c l)
    simp [List.dropWhile_cons, hc, ih l2 (fun x hx => h x (List.mem_cons_of_mem c hx))]

/-- `dropWhile` never lengthens a list. -/
theorem length_dropWhile_le_self (p : Char → Bool) : ∀ (l : List Char),
    (l.dropWhile p).length ≤ l.length := by
  intro l
  induction l with
  | nil => simp
  | cons c l ih =>
    cases h : p c with
    | true => simp only [List.dropWhile_cons, h, if_true, List.length_cons]; omega
    | false => simp [List.dropWhile_cons, h]

/-- `quoteSplit` finds the first closing quote: on `t ++ q :: rest` with a
non-empty quote-free `t` it returns `(t, rest)`. -/
theorem quoteSplit_eq (q : Char) (t rest : List Char) (ht : t ≠ [])
    (hq : ∀ c ∈ t, (c == q) = false) :
    quoteSplit q (t ++ q :: rest) = some (t, rest) := by
  unfold quoteSplit
  have hdrop : (t ++ q :: rest).dropWhile (fun c => !(c == q)) = q :: rest := by
    rw [dropWhile_append_all _ _ _ (fun c hc => by simp [hq c hc])]
    simp [List.dropWhile_cons]
  have htake : (t ++ q :: rest).takeWhile (fun c => !(c == q)) = t := by
    rw [takeWhile_append_all _ _ _ (fun c hc => by simp [hq c hc])]
    simp [List.takeWhile_cons]
  rw [hdrop]
  simp [htake, ht]

/-- A successful `quoteSplit` consumes at least one character. -/
theorem quoteSplit_length (q : Char) (cs content rest : List Char)
    (h : quoteSplit q cs = some (content, rest)) : rest.length < cs.length := by
  unfold quoteSplit at h
  cases hd : cs.dropWhile (fun c => !(c == q)) with
  | nil => rw [hd] at h; simp at h
  | cons x xs =>
    rw [hd] at h
    by_cases hc : (cs.takeWhile (fun c => !(c == q))).isEmpty
    · simp [hc] at h
    · simp only [hc, Bool.false_eq_true, if_false, Option.some.injEq, Prod.mk.injEq] at h
      obtain ⟨_, h2⟩ := h
      subst h2
      have hlen := length_dropWhile_le_self (fun c => !(c == q)) cs
      rw [hd] at hlen
      simp at hlen
      omega

/-- The scanner is fuel-insensitive once the fuel covers the input length. -/
theorem reFindallAux_congr : ∀ (f1 : Nat) (cs : List Char) (f2 : Nat),
    cs.length ≤ f1 → cs.length ≤ f2 → reFindallAux f1 cs = reFindallAux f2 cs := by
  intro f1
  induction f1 with
  | zero =>
    intro cs f2 h1 _
    have hcs : cs = [] := List.eq_nil_of_length_eq_zero (Nat.le_zero.1 h1)
    subst hcs
    cases f2 <;> rfl
  | succ a ih =>
    intro cs f2 h1 h2
    cases cs with
    | nil => cases f2 <;> rfl
    | cons c cs2 =>
      cases f2 with
      | zero => simp at h2
      | succ b =>
        have ha : cs2.length ≤ a := by simp at h1; omega
        have hb : cs2.length ≤ b := by simp at h2; omega
        have hub : (cs2.dropWhile isBareChar).length ≤ cs2.length :=
          length_dropWhile_le_self isBareChar cs2
        simp only [reFindallAux]
        by_cases hdq : (c == dquote) = true
        · rw [if_pos hdq, if_pos hdq]
          cases hq : quoteSplit dquote cs2 with
          | none =>
            dsimp only
            have hbc : isBareChar c = true := by
              have hcq : c = dquote := by simpa using hdq
              subst hcq; decide
            have hdw : (c :: cs2).dropWhile isBareChar = cs2.dropWhile isBareChar := by
              simp [List.dropWhile_cons, hbc]
            rw [hdw]
            rw [ih (cs2.dropWhile isBareChar) b (le_trans hub ha) (le_trans hub hb)]
          | some pr =>
            obtain ⟨content, rest⟩ := pr
            dsimp only
            have hlr := quoteSplit_length dquote cs2 content rest hq
            rw [ih rest b (by omega) (by omega)]
        · rw [if_neg hdq, if_neg hdq]
          by_cases hsq : (c == squote) = true
          · rw [if_pos hsq, if_pos hsq]
            cases hq : quoteSplit squote cs2 with
            | none =>
              dsimp only
              have hbc : isBareChar c = true := by
                have hcq : c = squote := by simpa using hsq
                subst hcq; decide
              have hdw : (c :: cs2).dropWhile isBareChar = cs2.dropWhile isBareChar := by
                simp [List.dropWhile_cons, hbc]
              rw [hdw]
              rw [ih (cs2.dropWhile isBareChar) b (le_trans hub ha) (le_trans hub hb)]
            | some pr =>
              obtain ⟨content, rest⟩ := pr
              dsimp only
              have hlr := quoteSplit_length squote cs2 content rest hq
              rw [ih rest b (by omega) (by omega)]
          · rw [if_neg hsq, if_neg hsq]
            by_cases hbc : isBareChar c = true
            · rw [if_pos hbc, if_pos hbc]
              have hdw : (c :: cs2).dropWhile isBareChar = cs2.dropWhile isBareChar := by
                simp [List.dropWhile_cons, hbc]
              rw [hdw]
              rw [ih (cs2.dropWhile isBareChar) b (le_trans hub ha) (le_trans hub hb)]
            · rw [if_neg hbc, if_neg hbc]
              exact ih cs2 b ha hb

/-- Scan step: a quoted token at the head of the input is matched whole. -/
theorem reFindall_quoted (q : Char) (hq : q = dquote ∨ q = squote)
    (t rest : List Char) (ht : t ≠ []) (hnq : ∀ c ∈ t, (c == q) = false) :
    reFindall (q :: (t ++ q :: rest)) = (q :: (t ++ [q])) :: reFindall rest := by
  have hbound : rest.length ≤ (t ++ q :: rest).length := by simp; omega
  unfold reFindall
  simp only [List.length_cons]
  simp only [reFindallAux]
  rcases hq with rfl | rfl
  · rw [if_pos (by rfl)]
    rw [quoteSplit_eq dquote t rest ht hnq]
    dsimp only
    rw [reFindallAux_congr _ rest _ hbound (le_refl _)]
  · rw [if_neg (by decide), if_pos (by rfl)]
    rw [quoteSplit_eq squote t rest ht hnq]
    dsimp only
    rw [reFindallAux_congr _ rest _ hbound (le_refl _)]

/-- Scan step: a bare token at the head of the input, delimited by the end
of input or a non-bare character, is matched whole. -/
theorem reFindall_bare (t rest : List Char) (ht : t ≠ [])
    (hb : ∀ c ∈ t, isBareChar c = true)
    (hqd : ∀ c ∈ t, (c == dquote) = false)
    (hqs : ∀ c ∈ t, (c == squote) = false)
    (hrest : rest = [] ∨ ∃ r rs, rest = r :: rs ∧ isBareChar r = false) :
    reFindall (t ++ rest) = t :: reFindall rest := by
  cases t with
  | nil => exact absurd rfl ht
  | cons c t2 =>
    have hmem : c ∈ c :: t2 := List.mem_cons_self c t2
    have htw : ((c :: t2) ++ rest).takeWhile isBareChar = c :: t2 := by
      rw [takeWhile_append_all _ _ _ hb]
      rcases hrest with rfl | ⟨r, rs, rfl, hr⟩
      · simp
      · simp [List.takeWhile_cons, hr]
    have hdw : ((c :: t2) ++ rest).dropWhile isBareChar = rest := by
      rw [dropWhile_append_all _ _ _ hb]
      rcases hrest with rfl | ⟨r, rs, rfl, hr⟩
      · simp
      · simp [List.dropWhile_cons, hr]
    have hbound : rest.length ≤ t2.length + rest.length := by omega
    unfold reFindall
    simp only [List.cons_append, List.length_cons, List.length_append]
    simp only [reFindallAux]
    rw [if_neg (by simp [hqd c hmem]), if_neg (by simp [hqs c hmem]),
      if_pos (hb c hmem)]
    rw [show (c :: (t2 ++ rest)) = (c :: t2) ++ rest from rfl, htw, hdw]
    rw [reFindallAux_congr _ rest _ hbound (le_refl _)]

/-- Scan step: the separator `", "` is skipped without producing a match. -/
theorem reFindall_sep (rest : List Char) :
    reFindall (',' :: ' ' :: rest) = reFindall rest := by
  unfold reFindall
  simp only [List.length_cons]
  simp only [reFindallAux]
  rw [if_neg (by decide), if_neg (by decide), if_neg (by decide),
    if_neg (by decide), if_neg (by decide), if_neg (by decide)]

/-- `dropWhile` is the identity when the head fails the predicate. -/
theorem dropWhile_head_false (p : Char → Bool) (cs : List Char)
    (h : ∀ c, cs.head? = some c → p c = false) : cs.dropWhile p = cs := by
  cases cs with
  | nil => rfl
  | cons c l => simp [List.dropWhile_cons, h c rfl]

/-- `strip` is the identity when neither end is whitespace. -/
theorem pyStrip_eq_self (cs : List Char)
    (h1 : ∀ c, cs.head? = some c → isPySpace c = false)
    (h2 : ∀ c, cs.getLast? = some c → isPySpace c = false) :
    pyStrip cs = cs := by
  unfold pyStrip
  rw [dropWhile_head_false _ _ h1]
  rw [dropWhile_head_false _ _ (fun c hc => h2 c (by rwa [List.head?_reverse] at hc))]
  exact List.reverse_reverse cs

/-- The last character of a quote-wrapped token is the quote. -/
theorem getLast?_wrapped (q : Char) (t : List Char) :
    (q :: (t ++ [q])).getLast? = some q := by
  rw [show q :: (t ++ [q]) = (q :: t) ++ [q] from rfl, List.getLast?_concat]

/-- Unquoting removes exactly one pair of wrapping quotes. -/
theorem unquoteChars_wrapped (q : Char) (hq : q = dquote ∨ q = squote)
    (t : List Char) : unquoteChars (q :: (t ++ [q])) = t := by
  have hqs : isPySpace q = false := by rcases hq with rfl | rfl <;> decide
  unfold unquoteChars
  rw [pyStrip_eq_self _
    (fun c hc => by simp only [List.head?_cons, Option.some.injEq] at hc; rw [← hc]; exact hqs)
    (fun c hc => by rw [getLast?_wrapped] at hc; simp only [Option.some.injEq] at hc; rw [← hc]; exact hqs)]
  have hcond : (startsEndsWith dquote (q :: (t ++ [q])) ||
      startsEndsWith squote (q :: (t ++ [q]))) = true := by
    rcases hq with rfl | rfl <;>
      simp [startsEndsWith, getLast?_wrapped]
  rw [if_pos hcond]
  simp [List.dropLast_concat]

/-- Components of `plainChar`. -/
theorem plainChar_parts (c : Char) (h : plainChar c = true) :
    isBareChar c = true ∧ (c == dquote) = false ∧ (c == squote) = false := by
  unfold plainChar at h
  rcases hb : isBareChar c <;> rcases hd : c == dquote <;> rcases hs : c == squote <;>
    simp [hb, hd, hs] at h ⊢

/-- A bare character is not whitespace. -/
theorem bare_space (c : Char) (h : isBareChar c = true) : isPySpace c = false := by
  unfold isBareChar at h
  rcases hs : isPySpace c <;> rcases hc : c == ',' <;> simp [hs, hc] at h ⊢

theorem plainChar_space (c : Char) (h : plainChar c = true) : isPySpace c = false :=
  bare_space c (plainChar_parts c h).1

/-- The last element of a list is a member. -/
theorem mem_of_getLast?_eq : ∀ (t : List Char) (c : Char), t.getLast? = some c → c ∈ t := by
  intro t c h
  rw [← List.head?_reverse] at h
  have hm : c ∈ t.reverse := by
    cases hr : t.reverse with
    | nil => rw [hr] at h; simp at h
    | cons x l =>
      rw [hr] at h
      simp only [List.head?_cons, Option.some.injEq] at h
      rw [← h]
      exact List.mem_cons_self x l
  exact List.mem_reverse.1 hm

/-- Unquoting is the identity on plain tokens. -/
theorem unquoteChars_plain (t : List Char) (h : ∀ c ∈ t, plainChar c = true) :
    unquoteChars t = t := by
  unfold unquoteChars
  dsimp only
  rw [pyStrip_eq_self t
    (fun c hc => plainChar_space c (h c (by
      cases t with
      | nil => simp at hc
      | cons x l => simp only [List.head?_cons, Option.some.injEq] at hc; rw [← hc]; exact List.mem_cons_self x l)))
    (fun c hc => plainChar_space c (h c (mem_of_getLast?_eq t c hc)))]
  have hcond : (startsEndsWith dquote t || startsEndsWith squote t) = false := by
    cases t with
    | nil => rfl
    | cons x l =>
      have hx : x ∈ x :: l := List.mem_cons_self x l
      simp [startsEndsWith, (plainChar_parts x (h x hx)).2.1, (plainChar_parts x (h x hx)).2.2]
  rw [hcond]
  simp

/-- Components of `plainTok`. -/
theorem plainTok_parts (t : List Char) (h : plainTok t = true) :
    t ≠ [] ∧ ∀ c ∈ t, plainChar c = true := by
  simp only [plainTok, Bool.and_eq_true, List.all_eq_true] at h
  obtain ⟨h1, h2⟩ := h
  constructor
  · intro hnil; subst hnil; simp at h1
  · intro c hc; exact h2 c hc

/-- The scan of a comma-separated field of styled plain tokens returns
exactly the styled tokens, in order. -/
theorem reFindall_joinField : ∀ (ps : List (QuoteStyle × List Char)),
    (∀ p ∈ ps, plainTok p.2 = true) →
    reFindall (joinField ps) = ps.map (fun p => applyQuote p.1 p.2) := by
  intro ps
  induction ps with
  | nil => intro _; rfl
  | cons p ps2 ih =>
    intro h
    obtain ⟨q, t⟩ := p
    obtain ⟨hne, hall⟩ := plainTok_parts t (h (q, t) (List.mem_cons_self _ _))
    have hqd : ∀ c ∈ t, (c == dquote) = false :=
      fun c hc => (plainChar_parts c (hall c hc)).2.1
    have hqs : ∀ c ∈ t, (c == squote) = false :=
      fun c hc => (plainChar_parts c (hall c hc)).2.2
    have hb : ∀ c ∈ t, isBareChar c = true :=
      fun c hc => (plainChar_parts c (hall c hc)).1
    cases ps2 with
    | nil =>
      cases q with
      | bare =>
        have hr := reFindall_bare t [] hne hb hqd hqs (Or.inl rfl)
        rw [List.append_nil] at hr
        simp only [joinField, applyQuote, List.map_cons, List.map_nil]
        rw [hr]
        rfl
      | double =>
        have hr := reFindall_quoted dquote (Or.inl rfl) t [] hne hqd
        simp only [joinField, applyQuote, List.map_cons, List.map_nil]
        rw [hr]
        rfl
      | single =>
        have hr := reFindall_quoted squote (Or.inr rfl) t [] hne hqs
        simp only [joinField, applyQuote, List.map_cons, List.map_nil]
        rw [hr]
        rfl
    | cons p2 ps3 =>
      have ih2 := ih (fun x hx => h x (List.mem_cons_of_mem _ hx))
      cases q with
      | bare =>
        simp only [joinField, applyQuote, List.map_cons]
        rw [reFindall_bare t (',' :: ' ' :: joinField (p2 :: ps3)) hne hb hqd hqs
          (Or.inr ⟨',', joinField (p2 :: ps3) |> fun X => ' ' :: X, rfl, by decide⟩)]
        rw [reFindall_sep, ih2]
        rfl
      | double =>
        simp only [joinField, applyQuote, List.map_cons]
        rw [show (dquote :: (t ++ [dquote])) ++ ',' :: ' ' :: joinField (p2 :: ps3) =
            dquote :: (t ++ dquote :: (',' :: ' ' :: joinField (p2 :: ps3))) by simp]
        rw [reFindall_quoted dquote (Or.inl rfl) t _ hne hqd]
        rw [reFindall_sep, ih2]
        rfl
      | single =>
        simp only [joinField, applyQuote, List.map_cons]
        rw [show (squote :: (t ++ [squote])) ++ ',' :: ' ' :: joinField (p2 :: ps3) =
            squote :: (t ++ squote :: (',' :: ' ' :: joinField (p2 :: ps3))) by simp]
        rw [reFindall_quoted squote (Or.inr rfl) t _ hne hqs]
        rw [reFindall_sep, ih2]
        rfl

/-- A field with at least one plain token is a non-empty string. -/
theorem joinField_ne_nil (p : QuoteStyle × List Char)
    (ps : List (QuoteStyle × List Char)) (hp : plainTok p.2 = true) :
    joinField (p :: ps) ≠ [] := by
  obtain ⟨hne, _⟩ := plainTok_parts p.2 hp
  cases ps with
  | nil =>
    simp only [joinField]
    cases hq : p.1
    · simpa [applyQuote] using hne
    · simp [applyQuote]
    · simp [applyQuote]
  | cons p2 ps2 =>
    simp only [joinField]
    intro hcon
    simp at hcon

/-- Parsing a comma-separated field of styled plain tokens yields exactly
the tokens, with quotes stripped, in order. -/
theorem parseTokens_joinField (ps : List (QuoteStyle × List Char))
    (h : ∀ p ∈ ps, plainTok p.2 = true) :
    parseTokens (joinField ps) = ps.map (fun p => String.mk p.2) := by
  unfold parseTokens
  rw [reFindall_joinField ps h]
  rw [List.map_map]
  have hmap : ps.map (unquoteChars ∘ fun p => applyQuote p.1 p.2) =
      ps.map (fun p => p.2) := by
    apply List.map_congr_left
    intro p hp
    rcases p with ⟨q, t⟩
    obtain ⟨hne, hall⟩ := plainTok_parts t (h ⟨q, t⟩ hp)
    cases q
    · exact unquoteChars_plain t hall
    · exact unquoteChars_wrapped dquote (Or.inl rfl) t
    · exact unquoteChars_wrapped squote (Or.inr rfl) t
  rw [hmap]
  have hfil : (ps.map (fun p => p.2)).filter (fun t => !t.isEmpty) =
      ps.map (fun p => p.2) := by
    rw [List.filter_eq_self]
    intro m hm
    rcases List.mem_map.1 hm with ⟨p, hp, rfl⟩
    obtain ⟨hne, _⟩ := plainTok_parts p.2 (h p hp)
    simpa using hne
  rw [hfil, List.map_map]
  rfl

/-- C4 counterexample: the claim as stated (no embedded commas suffices) is
false - the single-quoted token `c d` has no comma, parses as one token
`c d` when quoted, but as two tokens `c`, `d` in the equivalent unquoted
field, because the bare-token alternative also splits on whitespace. -/
theorem c4_quoting_counterexample :
    (',' ∉ ['c', ' ', 'd']) ∧
    parse_quoted_list (some (String.mk (joinField [(QuoteStyle.single, ['c', ' ', 'd'])]))) ≠
      parse_quoted_list (some (String.mk (joinField [(QuoteStyle.bare, ['c', ' ', 'd'])]))) := by
  decide

/-- C4 (amended): for tokens that are non-empty and contain no comma, no
whitespace and no quote character, a field of optionally single- or
double-quoted tokens parses to exactly those tokens, the same as the
equivalent unquoted comma-separated field. -/
theorem c4_plain_token_equivalence (ps : List (QuoteStyle × List Char))
    (h : ∀ p ∈ ps, plainTok p.2 = true) :
    parse_quoted_list (some (String.mk (joinField ps))) =
      ps.map (fun p => String.mk p.2) ∧
    parse_quoted_list (some (String.mk (joinField ps))) =
      parse_quoted_list (some (String.mk (joinField
        (ps.map (fun p => (QuoteStyle.bare, p.2)))))) := by
  have key : ∀ (ps2 : List (QuoteStyle × List Char)),
      (∀ p ∈ ps2, plainTok p.2 = true) →
      parse_quoted_list (some (String.mk (joinField ps2))) =
        ps2.map (fun p => String.mk p.2) := by
    intro ps2 h2
    cases ps2 with
    | nil => rfl
    | cons p ps3 =>
      have hnn := joinField_ne_nil p ps3 (h2 p (List.mem_cons_self _ _))
      unfold parse_quoted_list
      dsimp only
      rw [if_neg (fun hv => hnn (by simpa using congrArg String.data hv))]
      rw [show (String.mk (joinField (p :: ps3))).toList = joinField (p :: ps3) from rfl]
      exact parseTokens_joinField (p :: ps3) h2
  refine ⟨key ps h, ?_⟩
  rw [key ps h, key (ps.map (fun p => (QuoteStyle.bare, p.2)))
    (by intro p hp; rcases List.mem_map.1 hp with ⟨x, hx, rfl⟩; exact h x hx)]
  rw [List.map_map]
  rfl

/-- C4 witness: mixed quoting `"a", 'b', c` parses like `a, b, c`. -/
theorem c4_plain_token_equivalence_witness :
    parse_quoted_list (some (String.mk (joinField
      [(QuoteStyle.double, ['a']), (QuoteStyle.single, ['b']), (QuoteStyle.bare, ['c'])]))) =
      parse_quoted_list (some (String.mk (joinField
        ([(QuoteStyle.double, ['a']), (QuoteStyle.single, ['b']), (QuoteStyle.bare, ['c'])].map
          (fun p => (QuoteStyle.bare, p.2)))))) :=
  (c4_plain_token_equivalence
    [(QuoteStyle.double, ['a']), (QuoteStyle.single, ['b']), (QuoteStyle.bare, ['c'])]
    (by decide)).2




/-- A print extends the trace with a database-safe event. -/
theorem dbSafe_wPrint (m : String) (w : World) :
    ∀ e ∈ (wPrint m w).events, e ∈ w.events ∨ dbSafeEv e = true := by
  intro e he
  simp only [wPrint, wEmit] at he
  rcases List.mem_append.1 he with hA | hA
  · exact Or.inl hA
  · simp at hA; subst hA; exact Or.inr rfl

/-- Database-safe trace extension composes. -/
theorem safeExt_trans {w1 w2 w3 : World}
    (h12 : ∀ e ∈ w2.events, e ∈ w1.events ∨ dbSafeEv e = true)
    (h23 : ∀ e ∈ w3.events, e ∈ w2.events ∨ dbSafeEv e = true) :
    ∀ e ∈ w3.events, e ∈ w1.events ∨ dbSafeEv e = true := by
  intro e he
  rcases h23 e he with hA | hA
  · exact h12 e hA
  · exact Or.inr hA

/-- Per-item folder cleaning sends nothing to the database. -/
theorem dbSafe_cleanFolderItem (fs : Fs) (folder item : String) :
    (cleanFolderItemEvents fs folder item).all dbSafeEv = true := by
  unfold cleanFolderItemEvents
  dsimp only
  split_ifs <;> simp [dbSafeEv]

/-- Per-folder cleaning sends nothing to the database. -/
theorem dbSafe_cleanFolderEvents (fs : Fs) (folder : String) :
    (cleanFolderEvents fs folder).all dbSafeEv = true := by
  unfold cleanFolderEvents
  split_ifs
  · rw [List.all_append, Bool.and_eq_true]
    refine ⟨?_, by simp [dbSafeEv]⟩
    rw [List.all_eq_true]
    intro e he
    rcases List.mem_flatMap.1 he with ⟨item, _, hi⟩
    exact List.all_eq_true.1 (dbSafe_cleanFolderItem fs folder item) e hi
  · simp [dbSafeEv]

/-- Delegated subprocess runs send nothing to the database. -/
theorem dbSafe_run_as_user (o : Oracle) (cmd : List String) (u : String) :
    (run_as_user o cmd u).1.all dbSafeEv = true := by
  unfold run_as_user
  dsimp only
  split_ifs <;> simp [dbSafeEv]

/-- Per-item copying sends nothing to the database. -/
theorem dbSafe_copyItemEvents (fs : Fs) (o : Oracle) (cu src dest item : String) :
    (copyItemEvents fs o cu src dest item).all dbSafeEv = true := by
  unfold copyItemEvents run_as_user runAsUserCmd
  dsimp only
  split_ifs <;> simp [dbSafeEv, List.all_append]

/-- The whole per-source item loop sends nothing to the database. -/
theorem dbSafe_flatMap_copyItem (fs : Fs) (o : Oracle) (cu src dest : String)
    (items : List String) :
    (items.flatMap (copyItemEvents fs o cu src dest)).all dbSafeEv = true := by
  rw [List.all_eq_true]
  intro e he
  rcases List.mem_flatMap.1 he with ⟨item, _, hi⟩
  exact List.all_eq_true.1 (dbSafe_copyItemEvents fs o cu src dest item) e hi

/-- Per-pair copy processing sends nothing to the database. -/
theorem dbSafe_copyPairEvents (fs : Fs) (o : Oracle) (clnList : List String)
    (cu : String) (p : String × String) :
    (copyPairEvents fs o clnList cu p).all dbSafeEv = true := by
  have hitem : ∀ x, ∀ e ∈ copyItemEvents fs o cu p.1 p.2 x, dbSafeEv e = true :=
    fun x e he => List.all_eq_true.1 (dbSafe_copyItemEvents fs o cu p.1 p.2 x) e he
  unfold copyPairEvents run_as_user runAsUserCmd
  dsimp only
  split_ifs <;>
    first
      | (simp [dbSafeEv, List.all_append]; done)
      | (simp [dbSafeEv, List.all_append]
         intro x hx e he
         exact hitem x e he)

/-- Backing up one folder sends nothing to the database. -/
theorem dbSafe_backupFolderEvents (fs : Fs) (dir src : String) :
    (backupFolderEvents fs dir src).all dbSafeEv = true := by
  unfold backupFolderEvents
  split
  · split <;> simp [dbSafeEv]
  · rfl

/-- `create_backup` sends nothing to the database. -/
theorem dbSafe_create_backup (fs : Fs) (s : Settings) (now : String)
    (folders : List String) (w : World) :
    ∀ e ∈ (create_backup fs s now folders w).2.events,
      e ∈ w.events ∨ dbSafeEv e = true := by
  unfold create_backup
  split
  · exact dbSafe_wPrint _ w
  · intro e he
    simp only at he
    rcases List.mem_append.1 he with hA | hA
    · exact Or.inl hA
    · right
      simp only [List.mem_cons, List.mem_append] at hA
      rcases hA with rfl | rfl | hA | hA
      · rfl
      · rfl
      · rcases List.mem_flatMap.1 hA with ⟨f, _, hf⟩
        exact List.all_eq_true.1 (dbSafe_backupFolderEvents fs _ f) e hf
      · simp at hA; subst hA; rfl

/-- The backup phase sends nothing to the database. -/
theorem dbSafe_backupPhase (fs : Fs) (s : Settings) (now : String) (w : World) :
    ∀ e ∈ (backupPhase fs s now w).2.events, e ∈ w.events ∨ dbSafeEv e = true := by
  unfold backupPhase
  split
  · exact safeExt_trans (dbSafe_wPrint _ w) (dbSafe_create_backup fs s now _ _)
  · exact dbSafe_wPrint _ w

/-- `show_database_info` sends only `SHOW TABLES;` to the database. -/
theorem dbSafe_show_database_info (o : Oracle) (s : Settings) (w : World) :
    ∀ e ∈ (show_database_info o s w).events, e ∈ w.events ∨ dbSafeEv e = true := by
  intro e he
  rcases hc : o.connOk w.conns <;>
    rcases hx : o.execOk w.step <;>
      rcases hi : w.tables.isEmpty <;>
        simp only [show_database_info, wConnect, wExec, wPrint, wEmit, hc, hx, hi,
          Bool.not_true, Bool.not_false, if_true, if_false, ite_true, ite_false,
          Bool.false_eq_true, Bool.true_eq_false, List.append_assoc] at he <;>
        (rcases List.mem_append.1 he with hA | hA
         · exact Or.inl hA
         · exact Or.inr (List.all_eq_true.1 (by simp [dbSafeEv]) e hA))

/-- `clean_folders` sends nothing to the database. -/
theorem dbSafe_clean_folders (o : Oracle) (fs : Fs) (folders : List String)
    (s : Settings) (w : World) :
    ∀ e ∈ (clean_folders o fs folders s w).events,
      e ∈ w.events ∨ dbSafeEv e = true := by
  have hflat : (folders.flatMap (cleanFolderEvents fs)).all dbSafeEv = true := by
    rw [List.all_eq_true]
    intro e he
    rcases List.mem_flatMap.1 he with ⟨f, _, hf⟩
    exact List.all_eq_true.1 (dbSafe_cleanFolderEvents fs f) e hf
  intro e he
  unfold clean_folders at he
  by_cases hcf : (s.security.confirm_destructive_operations && !folders.isEmpty) = true
  · rw [if_pos hcf] at he
    rcases hp : o.promptYes w.prompts <;>
      simp only [wPrompt, wPrint, wEmit, hp, Bool.not_true, Bool.not_false, if_true,
        if_false, ite_true, ite_false, Bool.false_eq_true, Bool.true_eq_false,
        List.append_assoc] at he <;>
      (rcases List.mem_append.1 he with hA | hA
       · exact Or.inl hA
       · refine Or.inr (List.all_eq_true.1 ?_ e hA)
         simp [dbSafeEv, List.all_append, hflat])
  · rw [if_neg hcf] at he
    dsimp only at he
    rcases List.mem_append.1 he with hA | hA
    · exact Or.inl hA
    · exact Or.inr (List.all_eq_true.1 hflat e hA)

/-- Copy propagation sends nothing to the database. -/
theorem dbSafe_copy_files (fs : Fs) (o : Oracle) (s : Settings) (w : World) :
    ∀ e ∈ (copy_files_to_cleaned_folders fs o s w).events,
      e ∈ w.events ∨ dbSafeEv e = true := by
  have hflat : ((s.folders.copy_sources.zip s.folders.copy_destinations).flatMap
      (copyPairEvents fs o s.folders.clean s.folders.copy_user)).all dbSafeEv = true := by
    rw [List.all_eq_true]
    intro e he
    rcases List.mem_flatMap.1 he with ⟨pr, _, hp⟩
    exact List.all_eq_true.1 (dbSafe_copyPairEvents fs o _ _ pr) e hp
  intro e he
  unfold copy_files_to_cleaned_folders at he
  dsimp only at he
  split_ifs at he with h1 h2
  · exact dbSafe_wPrint _ w e he
  · exact dbSafe_wPrint _ w e he
  · dsimp only at he
    rcases List.mem_append.1 he with hA | hA
    · exact Or.inl hA
    · exact Or.inr (List.all_eq_true.1 hflat e hA)

/-- The folder-cleaning phase sends nothing to the database. -/
theorem dbSafe_foldersCleanPhase (o : Oracle) (fs : Fs) (s : Settings) (w : World) :
    ∀ e ∈ (foldersCleanPhase o fs s w).events, e ∈ w.events ∨ dbSafeEv e = true := by
  unfold foldersCleanPhase
  split
  · exact safeExt_trans (dbSafe_wPrint _ w) (dbSafe_clean_folders o fs _ s _)
  · exact dbSafe_wPrint _ w

/-- The copy phase sends nothing to the database. -/
theorem dbSafe_copyPhase (fs : Fs) (o : Oracle) (s : Settings) (w : World) :
    ∀ e ∈ (copyPhase fs o s w).events, e ∈ w.events ∨ dbSafeEv e = true := by
  unfold copyPhase
  split
  · exact safeExt_trans (dbSafe_wPrint _ w) (dbSafe_copy_files fs o s _)
  · exact dbSafe_wPrint _ w

/-- If the database phase is database-safe, the whole pipeline after the
backup phase sends nothing destructive to the database. -/
theorem dbSafe_mainRestPhases (o : Oracle) (fs : Fs) (s : Settings)
    (bp : Option String) (w : World)
    (hdb : ∀ w2 : World, ∀ e ∈ (dbCleanPhase o s w2).events,
      e ∈ w2.events ∨ dbSafeEv e = true) :
    ∀ e ∈ (mainRestPhases o fs s bp w).events,
      e ∈ w.events ∨ dbSafeEv e = true := by
  have c1 := dbSafe_wPrint "=== Состояние БД ДО очистки ===" w
  have c2 := safeExt_trans c1 (dbSafe_show_database_info o s _)
  have c3 := safeExt_trans c2 (hdb _)
  have c4 := safeExt_trans c3 (dbSafe_wPrint "=== Состояние БД ПОСЛЕ очистки ===" _)
  have c5 := safeExt_trans c4 (dbSafe_show_database_info o s _)
  have c6 := safeExt_trans c5 (dbSafe_foldersCleanPhase o fs s _)
  have c7 := safeExt_trans c6 (dbSafe_copyPhase fs o s _)
  have c8 := safeExt_trans c7 (dbSafe_wPrint "Очистка и копирование завершены" _)
  cases bp with
  | none => exact c8
  | some p => exact safeExt_trans c8 (dbSafe_wPrint _ _)

/-- C10: with an empty `database.database_name`, the database phase is just
a skip message (for every state - `clean_database` is never invoked), and
the full run issues no SQL statement other than `SHOW TABLES;` while the
backup, folder-cleaning and copy phases still execute. -/
theorem c10_empty_db_name_skips_db (o : Oracle) (fs : Fs) (s : Settings)
    (now : String) (w : World) (h : s.database.database_name = "") :
    (∀ w2 : World, dbCleanPhase o s w2 =
      wPrint "Имя базы данных не указано, пропускаем очистку БД" w2) ∧
    (∀ e ∈ (mainAfterSummary o fs s now w).events,
      e ∈ w.events ∨ dbSafeEv e = true) := by
  have hdbeq : ∀ w2 : World, dbCleanPhase o s w2 =
      wPrint "Имя базы данных не указано, пропускаем очистку БД" w2 := by
    intro w2
    unfold dbCleanPhase
    rw [if_neg (by simp [h]; decide)]
  refine ⟨hdbeq, ?_⟩
  have hdb : ∀ w2 : World, ∀ e ∈ (dbCleanPhase o s w2).events,
      e ∈ w2.events ∨ dbSafeEv e = true := by
    intro w2
    rw [hdbeq w2]
    exact dbSafe_wPrint _ w2
  exact safeExt_trans (dbSafe_backupPhase fs s now w)
    (dbSafe_mainRestPhases o fs s _ _ hdb)

/-- C10 witness. -/
theorem c10_empty_db_name_skips_db_witness :
    dbCleanPhase oracleAllOk settingsNoDb (initWorld []) =
      wPrint "Имя базы данных не указано, пропускаем очистку БД" (initWorld []) :=
  (c10_empty_db_name_skips_db oracleAllOk fsEmpty settingsNoDb "x"
    (initWorld []) rfl).1 (initWorld [])

end Cleaner

